import Mathlib

/-!
Shallow embedding of the pouch project-quota driver
(`storage/quota/prjquota.go`) and verification of the specification
claims about it.  External collaborators that live outside the excerpt
(device stat, size parsing, kernel quota listing, command execution)
are modelled as an environment of oracles; every function of the
driver is translated directly from the Go source, threading the
driver state explicitly and recording the list of external commands
(argv lists) it runs.
-/

deriving instance DecidableEq for Except

/-- Splits a character list at every occurrence of the separator, keeping
empty chunks, matching Go strings.Split with a one-character separator. -/
def splitChar (sep : Char) : List Char → List (List Char)
  | [] => [[]]
  | c :: cs =>
    if c = sep then [] :: splitChar sep cs
    else
      match splitChar sep cs with
      | [] => [[c]]
      | h :: t => (c :: h) :: t

/-- Go strings.Split of a string at a one-character separator. -/
def splitS (sep : Char) (s : String) : List String :=
  (splitChar sep s.data).map (fun l => String.mk l)

/-- Indexing into the split fields of a line, with the empty string
out of range (the in-range behaviour of the Go parts slice; every use
is guarded by a length check). -/
def getF (l : List String) (i : Nat) : String :=
  List.getD l i ("")

/-- Boolean test that the first list is a leading segment of the second. -/
def leadsWith : List Char → List Char → Bool
  | [], _ => true
  | _ :: _, [] => false
  | a :: as, b :: bs => a = b && leadsWith as bs

/-- Boolean test that the pattern occurs somewhere inside the list. -/
def hasSub (sub : List Char) : List Char → Bool
  | [] => leadsWith sub []
  | c :: cs => leadsWith sub (c :: cs) || hasSub sub cs

/-- Go strings.Contains: the pattern occurs as a contiguous substring. -/
def strContainsSub (s pat : String) : Bool :=
  hasSub pat.data s.data

/-- Modelled from the spec: the supported filesystem kind constants
(`xfsFS`, `ext3FS`, `ext4FS`), defined in the repository outside the
excerpt. -/
def xfsFS : String := "xfs"

/-- Modelled from the spec: see `xfsFS`. -/
def ext3FS : String := "ext3"

/-- Modelled from the spec: see `xfsFS`. -/
def ext4FS : String := "ext4"

/-- Modelled from the spec: the configured minimum floor for quota
identifiers (`QuotaMinID`, defined in the repository outside the
excerpt); the spec scenario allocates 16777217 as a first identifier
above the floor. -/
def QuotaMinID : Nat := 16777216

/-- The size of the uint32 identifier space; the Go driver stores quota
identifiers as uint32, so arithmetic on them wraps modulo this bound. -/
def U32 : Nat := 4294967296

/-- Result of one external command execution: exit status, captured
stdout and stderr, and the error value (none means success). -/
structure ExecResult where
  exit : Int
  stdout : String
  stderr : String
  err : Option String
deriving DecidableEq

/-- Modelled from the spec: the external collaborators of the driver,
all of which live outside the excerpt.  `getDevID` stats a path and
yields its device identifier; `setDevLimit` is the per-device pre-check
done at the start of enforcement; `getMountpointFstype` yields the
filesystem kind backing a path; `toKilobytes` parses a human size
string; `devBudget` is the assignable budget consulted by the
capacity check; `procMounts` is the content of the kernel mount table
file; `loadQuotaIDs` is the kernel quota listing (identifier set and
last marker); `run` executes an external command given its argv. -/
structure Env where
  getDevID : String → Except String Nat
  setDevLimit : String → Nat → Except String Nat
  getMountpointFstype : String → Except String String
  toKilobytes : String → Except String Nat
  devBudget : String → Nat
  procMounts : Except String String
  loadQuotaIDs : Except String (Finset Nat × Nat)
  run : List String → ExecResult

/-- The error taxonomy of the spec (section 7): lookup failure,
capacity violation, tool invocation failure, protocol failure, and a
catch-all for the remaining wrapped errors. -/
inductive QErrKind
  | lookup
  | capacity
  | tool
  | protocol
  | other
deriving DecidableEq

/-- An error value: its kind together with the wrapped message. -/
structure QErr where
  kind : QErrKind
  msg : String
deriving DecidableEq

/-- The mutable state of `PrjQuotaDriver`: the set of used quota ids,
the device-id to mountpoint cache (a map, modelled as an association
list with overwrite-on-insert), and the last allocated id marker. -/
structure DriverState where
  quotaIDs : Finset Nat
  mountPoints : List (Nat × String)
  lastID : Nat
deriving DecidableEq

/-- Go map lookup with comma-ok semantics on the mountpoint cache. -/
def lookupMP : List (Nat × String) → Nat → Option String
  | [], _ => none
  | (k, v) :: rest, d => if k = d then some v else lookupMP rest d

/-- Go map assignment on the mountpoint cache: overwrite the entry for
the key if present, otherwise append it. -/
def insertMP : List (Nat × String) → Nat → String → List (Nat × String)
  | [], k, v => [(k, v)]
  | (k', v') :: rest, k, v =>
    if k' = k then (k, v) :: rest else (k', v') :: insertMP rest k v

/-- The fstype filter of `CheckMountpoint`: only xfs/ext3/ext4 lines
are considered. -/
def supportedFS (fs : String) : Bool :=
  fs = xfsFS || fs = ext3FS || fs = ext4FS

/-- The device id of a mount-table mountpoint as `CheckMountpoint`
computes it: `devID2, _ := getDevID(parts[1])` discards the error, so a
failed stat contributes the zero value. -/
def devIDof (env : Env) (p : String) : Nat :=
  match env.getDevID p with
  | .ok d => d
  | .error _ => 0

/-- The prjquota-option scan of `CheckMountpoint`: one of the
comma-separated mount options equals prjquota. -/
def hasPrjOption (opts : String) : Bool :=
  (splitS (',') opts).any (fun v => v == ("prjquota"))

/-- The running accumulator of the `CheckMountpoint` line scan:
`enableQuota`, `mountPoint` and `fsType` of the Go source. -/
structure ScanAcc where
  enableQuota : Bool
  mountPoint : String
  fsType : String
deriving DecidableEq

/-- One iteration of the `CheckMountpoint` loop over a mount-table
line, translated guard by guard from the Go source: skip lines that do
not have six fields, are not of a supported filesystem kind, or whose
mountpoint is on a different device; skip matches strictly longer than
the current one; otherwise overwrite mountpoint and fstype and turn the
quota flag on if the options contain prjquota (the flag is never
turned off again). -/
def scanLine (env : Env) (devID : Nat) (acc : ScanAcc) (line : String) : ScanAcc :=
  let parts := splitS (' ') line
  if parts.length ≠ 6 then acc
  else if supportedFS (getF parts 2) = false then acc
  else if devIDof env (getF parts 1) ≠ devID then acc
  else if acc.mountPoint ≠ ("") ∧ acc.mountPoint.length < (getF parts 1).length then acc
  else
    { enableQuota := acc.enableQuota || hasPrjOption (getF parts 3)
      mountPoint := getF parts 1
      fsType := getF parts 2 }

/-- Embedding of `PrjQuotaDriver.CheckMountpoint`: scan the mount table for the
device and report (mountpoint, quota-enabled flag, fstype); a read
failure of the mount table yields empty results. -/
def CheckMountpoint (env : Env) (devID : Nat) : String × Bool × String :=
  match env.procMounts with
  | .error _ => ((""), false, (""))
  | .ok output =>
    let acc := (splitS ('\n') output).foldl (scanLine env devID) ⟨false, (""), ("")⟩
    (acc.mountPoint, acc.enableQuota, acc.fsType)

/-- Argv of the remount command issued by `EnforceQuota`. -/
def remountCmd (mountPoint : String) : List String :=
  ["mount", "-o", "remount,prjquota", mountPoint]

/-- Argv of the quota activation command issued by `EnforceQuota`. -/
def quotaonCmd (mountPoint : String) : List String :=
  ["quotaon", "-P", mountPoint]

/-- The stderr marker that makes a failed activation count as success. -/
def fileExistsMark : String := " File exists"

/-- The tail of `EnforceQuota` after the remount stage: resolve the
filesystem kind, activate quota via quotaon unless the kind is xfs
(treating a failure whose stderr contains the File-exists marker as
success), then unconditionally record the resulting mountpoint — the
empty string on activation failure — in the per-device cache, exactly
as lines 76-102 of the Go source do.  On a genuine quotaon failure the
quotaon result lives in the inner variable err2 while line 92 wraps
the outer err, which is necessarily nil there (a non-nil
getMountpointFstype error already returned), and wrapping nil yields
nil: the code therefore returns the emptied mountpoint with a nil
error while caching the empty string. -/
def enforceActivate (env : Env) (s : DriverState) (devID : Nat) (dir mountPoint : String)
    (tr : List (List String)) : Except QErr String × DriverState × List (List String) :=
  match env.getMountpointFstype dir with
  | .error e => (.error ⟨.other, ("failed to get filesystem type: ") ++ e⟩, s, tr)
  | .ok fstype =>
    if fstype ≠ xfsFS then
      match (env.run (quotaonCmd mountPoint)).err with
      | none =>
        (.ok mountPoint, { s with mountPoints := insertMP s.mountPoints devID mountPoint },
         tr ++ [quotaonCmd mountPoint])
      | some _ =>
        if strContainsSub (env.run (quotaonCmd mountPoint)).stderr fileExistsMark then
          (.ok mountPoint, { s with mountPoints := insertMP s.mountPoints devID mountPoint },
           tr ++ [quotaonCmd mountPoint])
        else
          (.ok (""),
           { s with mountPoints := insertMP s.mountPoints devID ("") },
           tr ++ [quotaonCmd mountPoint])
    else
      (.ok mountPoint, { s with mountPoints := insertMP s.mountPoints devID mountPoint }, tr)

/-- Embedding of `PrjQuotaDriver.EnforceQuota`: resolve the device of the directory,
run the pre-check, return the cached mountpoint if the device was
already processed, otherwise resolve the mountpoint from the mount
table, remount with prjquota when the option is missing, and activate
quota tracking (see `enforceActivate`).  Returns the mountpoint, the
updated state and the list of commands run. -/
def EnforceQuota (env : Env) (s : DriverState) (dir : String) :
    Except QErr String × DriverState × List (List String) :=
  match env.getDevID dir with
  | .error e => (.error ⟨.lookup, ("failed to get device id for directory ") ++ dir ++ (": ") ++ e⟩, s, [])
  | .ok devID =>
    match env.setDevLimit dir devID with
    | .error e => (.error ⟨.other, ("failed to set device limit: ") ++ e⟩, s, [])
    | .ok _ =>
      match lookupMP s.mountPoints devID with
      | some mp => (.ok mp, s, [])
      | none =>
        if (CheckMountpoint env devID).1 = ("") then
          (.error ⟨.lookup, ("mountPoint not found for the device on which dir lies: ") ++ dir⟩, s, [])
        else if (CheckMountpoint env devID).2.1 then
          enforceActivate env s devID dir (CheckMountpoint env devID).1 []
        else
          match (env.run (remountCmd (CheckMountpoint env devID).1)).err with
          | some e =>
            (.error ⟨.tool, ("failed to remount prjquota: ") ++ e⟩, s,
             [remountCmd (CheckMountpoint env devID).1])
          | none =>
            enforceActivate env s devID dir (CheckMountpoint env devID).1
              [remountCmd (CheckMountpoint env devID).1]

/-- One step of the id scan of `GetNextQuotaID`: raise the candidate to
the floor if below it, then increment; uint32 arithmetic wraps. -/
def scanStep (id : Nat) : Nat :=
  ((if id < QuotaMinID then QuotaMinID else id) + 1) % U32

/-- The unbounded scan loop of `GetNextQuotaID`, given fuel: repeat
`scanStep` until the candidate is outside the used-id set; `none`
models the Go loop never terminating. -/
def scanFree (ids : Finset Nat) : Nat → Nat → Option Nat
  | 0, _ => none
  | fuel + 1, id =>
    if scanStep id ∈ ids then scanFree ids fuel (scanStep id) else some (scanStep id)

/-- The lazy-load stage of `GetNextQuotaID`: when the last marker is
still zero, populate the id set and marker from the kernel quota
listing. -/
def gnqLoad (env : Env) (s : DriverState) : Except QErr DriverState :=
  if s.lastID = 0 then
    match env.loadQuotaIDs with
    | .error e => .error ⟨.protocol, ("failed to load quota list: ") ++ e⟩
    | .ok (ids, last) => .ok { s with quotaIDs := ids, lastID := last }
  else .ok s

/-- Embedding of `PrjQuotaDriver.GetNextQuotaID`: lazily load the id set, scan
upwards for a free id, insert it and update the marker.  `.ok none`
models divergence of the source loop (only possible when every uint32
candidate is taken). -/
def GetNextQuotaID (env : Env) (s : DriverState) :
    Except QErr (Option (Nat × DriverState)) :=
  match gnqLoad env s with
  | .error e => .error e
  | .ok t =>
    match scanFree t.quotaIDs U32 t.lastID with
    | none => .ok none
    | some id => .ok (some (id, { t with quotaIDs := insert id t.quotaIDs, lastID := id }))

/-- Go path.Dir restricted to slash-separated paths without dot
segments: everything before the final slash, with trailing slashes
stripped; the root maps to the root and a slashless path to the
current-directory marker. -/
def pathDir (p : String) : String :=
  match p.data.reverse.dropWhile (fun c => c != ('/')) with
  | [] => (".")
  | r =>
    match r.dropWhile (fun c => c == ('/')) with
    | [] => ("/")
    | r2 => String.mk r2.reverse

/-- Decimal digit value of a character, none for non-digits. -/
def digitVal (c : Char) : Option Nat :=
  if ('0') ≤ c ∧ c ≤ ('9') then some (c.toNat - (('0') : Char).toNat) else none

/-- Accumulating decimal parse of a digit list; none on any non-digit. -/
def digitsValAux : List Char → Nat → Option Nat
  | [], acc => some acc
  | c :: cs, acc =>
    match digitVal c with
    | none => none
    | some d => digitsValAux cs (acc * 10 + d)

/-- Decimal parse of a non-empty digit list. -/
def digitsVal (l : List Char) : Option Nat :=
  match l with
  | [] => none
  | _ => digitsValAux l 0

/-- Go strconv.Atoi on well-formed decimal integers: an optional sign
followed by digits; none for anything else. -/
def goAtoi (s : String) : Option Int :=
  match s.data with
  | ('-') :: rest => (digitsVal rest).map (fun n => -(n : Int))
  | ('+') :: rest => (digitsVal rest).map (fun n => (n : Int))
  | l => (digitsVal l).map (fun n => (n : Int))

/-- Go conversion of a signed integer to uint32: reduction modulo 2^32
with two-complement wrapping of negatives. -/
def toU32 (v : Int) : Nat :=
  (v % ((4294967296 : Int))).toNat

/-- Argv of the attribute-listing command run by the tag reader. -/
def lsattrCmd (parent : String) : List String :=
  ["lsattr", "-p", parent]

/-- The stdout scan of `GetQuotaIDInFileAttr`: the first line with more
than two space-separated fields whose third field equals the directory
yields its first field parsed as a quota id (zero when unparsable);
zero when no line matches. -/
def findQidLine (dir : String) : List String → Nat
  | [] => 0
  | line :: rest =>
    let parts := splitS (' ') line
    if 2 < parts.length ∧ getF parts 2 = dir then
      toU32 ((goAtoi (getF parts 0)).getD 0)
    else findQidLine dir rest

/-- Embedding of `PrjQuotaDriver.GetQuotaIDInFileAttr`: run lsattr on the parent of
the directory and parse the directory's quota id out of the output;
zero on any failure.  Also returns the commands run. -/
def GetQuotaIDInFileAttr (env : Env) (dir : String) : Nat × List (List String) :=
  let cmd := lsattrCmd (pathDir dir)
  let r := env.run cmd
  match r.err with
  | some _ => (0, [cmd])
  | none => (findQidLine dir (splitS ('\n') r.stdout), [cmd])

/-- Argv of the ext-family tagging command of `SetSubtree`. -/
def chattrCmd (id : Nat) (dir : String) : List String :=
  ["chattr", "-p", toString id, "+P", dir]

/-- Argv of the xfs tagging command of `SetSubtree`. -/
def xfsProjectCmd (id : Nat) (dir : String) : List String :=
  ["xfs_quota", "-x", "-c", ("project -s -p ") ++ dir ++ (" ") ++ toString id]

/-- The tagging stage of `SetSubtree` (lines 125-147 of the Go source):
resolve the filesystem kind of the directory and issue the matching
tagging command, returning the id on success. -/
def setSubtreeTag (env : Env) (s : DriverState) (dir : String) (id : Nat)
    (tr : List (List String)) : Except QErr Nat × DriverState × List (List String) :=
  match env.getMountpointFstype dir with
  | .error e => (.error ⟨.other, ("failed to get fs type: ") ++ e⟩, s, tr)
  | .ok fstype =>
    if fstype ≠ xfsFS then
      let r := env.run (chattrCmd id dir)
      (match r.err with
       | none => .ok id
       | some e => .error ⟨.tool, ("failed to chattr: ") ++ e⟩,
       s, tr ++ [chattrCmd id dir])
    else
      let r := env.run (xfsProjectCmd id dir)
      (match r.err with
       | none => .ok id
       | some e => .error ⟨.tool, ("failed to xfs quota: ") ++ e⟩,
       s, tr ++ [xfsProjectCmd id dir])

/-- Embedding of `PrjQuotaDriver.SetSubtree`: when the requested id is zero, reuse a
nonzero id already tagged on the directory, otherwise allocate a fresh
one; then tag the directory.  The outer `none` models divergence of the
allocator loop. -/
def SetSubtree (env : Env) (s : DriverState) (dir : String) (qid : Nat) :
    Option (Except QErr Nat × DriverState × List (List String)) :=
  if qid = 0 then
    let r0 := GetQuotaIDInFileAttr env dir
    if 0 < r0.1 then some (.ok r0.1, s, r0.2)
    else
      match GetNextQuotaID env s with
      | .error e => some (.error ⟨e.kind, ("failed to get quota id: ") ++ e.msg⟩, s, r0.2)
      | .ok none => none
      | .ok (some (nid, s2)) => some (setSubtreeTag env s2 dir nid r0.2)
  else some (setSubtreeTag env s dir qid [])

/-- Argv of the ext-family limit command of `setQuota`: note that the
soft block limit argument is the literal zero and only the hard block
limit carries the requested value; both inode limits are zero. -/
def setquotaCmd (id limit : Nat) (mountPoint : String) : List String :=
  ["setquota", "-P", toString id, "0", toString limit, "0", "0", mountPoint]

/-- Argv of the xfs limit command of `setQuota`: only the hard block
limit (bhard) is set. -/
def xfsLimitCmd (id limit : Nat) (mountPoint : String) : List String :=
  ["xfs_quota", "-x", "-c", ("limit -p bhard=") ++ toString limit ++ ("k ") ++ toString id, mountPoint]

/-- Embedding of `PrjQuotaDriver.setQuota`: resolve the filesystem kind of the
mountpoint and issue the matching block-limit command. -/
def setQuota (env : Env) (quotaID blockLimit : Nat) (mountPoint : String) :
    Except QErr Unit × List (List String) :=
  match env.getMountpointFstype mountPoint with
  | .error e => (.error ⟨.other, ("failed to get fs type: ") ++ e⟩, [])
  | .ok fstype =>
    if fstype ≠ xfsFS then
      let r := env.run (setquotaCmd quotaID blockLimit mountPoint)
      (match r.err with
       | none => .ok ()
       | some e => .error ⟨.tool, ("failed to set quota: ") ++ e⟩,
       [setquotaCmd quotaID blockLimit mountPoint])
    else
      let r := env.run (xfsLimitCmd quotaID blockLimit mountPoint)
      (match r.err with
       | none => .ok ()
       | some e => .error ⟨.tool, ("failed to set quota: ") ++ e⟩,
       [xfsLimitCmd quotaID blockLimit mountPoint])

/-- Modelled from the spec: the device-capacity sanity check (the
external collaborator `checkDevLimit`, outside the excerpt) fails with
a capacity-violation error exactly when the requested byte size
exceeds the device's assignable budget. -/
def checkDevLimit (env : Env) (dir : String) (size : Nat) : Except QErr Unit :=
  if env.devBudget dir < size then
    .error ⟨.capacity, ("exceed the maximum size of device backing ") ++ dir⟩
  else .ok ()

/-- Embedding of `PrjQuotaDriver.SetDiskQuota`: enforce quota on the device, convert
the size to kilobytes, check the device capacity, bind the subtree and
set the block limit, short-circuiting on the first failure. -/
def SetDiskQuota (env : Env) (s : DriverState) (dir size : String) (quotaID : Nat) :
    Option (Except QErr Unit × DriverState × List (List String)) :=
  let e1 := EnforceQuota env s dir
  match e1.1 with
  | .error e => some (.error ⟨e.kind, ("failed to enforce quota: ") ++ e.msg⟩, e1.2.1, e1.2.2)
  | .ok mountPoint =>
    if mountPoint = ("") then
      some (.error ⟨.other, ("failed to find mountpoint: ") ++ dir⟩, e1.2.1, e1.2.2)
    else
      match env.toKilobytes size with
      | .error e => some (.error ⟨.other, ("failed to change size to kilobytes: ") ++ e⟩, e1.2.1, e1.2.2)
      | .ok limit =>
        match checkDevLimit env dir (limit * 1024) with
        | .error e => some (.error ⟨e.kind, ("failed to check device limit: ") ++ e.msg⟩, e1.2.1, e1.2.2)
        | .ok _ =>
          match SetSubtree env e1.2.1 dir quotaID with
          | none => none
          | some (r2, s2, tr2) =>
            match r2 with
            | .error e => some (.error ⟨e.kind, ("failed to set subtree: ") ++ e.msg⟩, s2, e1.2.2 ++ tr2)
            | .ok id =>
              if id = 0 then
                some (.error ⟨.other, ("failed to find quota id to set subtree")⟩, s2, e1.2.2 ++ tr2)
              else
                let r3 := setQuota env id limit mountPoint
                some (r3.1, s2, e1.2.2 ++ tr2 ++ r3.2)

/-- Argv of the recursive ext-family tagging command. -/
def chattrRCmd (id : Nat) (dir : String) : List String :=
  ["chattr", "-R", "-p", toString id, "+P", dir]

/-- Embedding of `PrjQuotaDriver.SetFileAttrRecursive`: always runs the recursive
chattr command, with no filesystem-kind dispatch. -/
def SetFileAttrRecursive (env : Env) (dir : String) (quotaID : Nat) :
    Except QErr Unit × List (List String) :=
  let r := env.run (chattrRCmd quotaID dir)
  (match r.err with
   | none => .ok ()
   | some e => .error ⟨.tool, ("failed to set file quota id by recursively: ") ++ e⟩,
   [chattrRCmd quotaID dir])

/-- The first three guards of the `CheckMountpoint` loop as a matching
predicate on one mount-table line: six fields, supported filesystem
kind and device equality; yields the mountpoint field of a matching
line. -/
def lineMatchMP (env : Env) (devID : Nat) (line : String) : Option String :=
  let parts := splitS (' ') line
  if parts.length = 6 ∧ supportedFS (getF parts 2) = true
      ∧ devIDof env (getF parts 1) = devID then
    some (getF parts 1)
  else none

/-- The mountpoints of all matching entries of a mount-table listing. -/
def mountMatches (env : Env) (devID : Nat) (lines : List String) : List String :=
  lines.filterMap (lineMatchMP env devID)

/-- The options fields of the matching entries that the
`CheckMountpoint` loop does not skip by the shortest-mountpoint check,
given the current best mountpoint; the quota flag reported by the scan
is the disjunction of their prjquota tests. -/
def acceptedOpts (env : Env) (devID : Nat) : String → List String → List String
  | _, [] => []
  | mp, line :: rest =>
    match lineMatchMP env devID line with
    | none => acceptedOpts env devID mp rest
    | some m =>
      if mp ≠ ("") ∧ mp.length < m.length then acceptedOpts env devID mp rest
      else getF (splitS (' ') line) 3 :: acceptedOpts env devID m rest

/-- A concrete environment: device 7 backs both `/d` and the mountpoint
`/m`, the mount table has one ext4 entry for it without the prjquota
option, and the quota activation command fails with unrelated stderr. -/
def envQOFail : Env where
  getDevID := fun p => if p = ("/d") ∨ p = ("/m") then .ok 7 else .error ("no such path")
  setDevLimit := fun _ _ => .ok 0
  getMountpointFstype := fun _ => .ok ext4FS
  toKilobytes := fun _ => .error ("unused")
  devBudget := fun _ => 0
  procMounts := .ok ("/dev/x /m ext4 rw,relatime 0 0")
  loadQuotaIDs := .error ("unused")
  run := fun cmd =>
    if cmd = quotaonCmd ("/m") then ⟨1, (""), ("boom"), some ("exit status 1")⟩
    else ⟨0, (""), (""), none⟩

/-- An environment in which every external command succeeds, the size
string 10G parses, and the device budget is zero, so any size request
violates capacity. -/
def envAllOk : Env :=
  { envQOFail with
    run := fun _ => ⟨0, (""), (""), none⟩
    toKilobytes := fun z => if z = ("10G") then .ok 10485760 else .error ("bad size") }

/-- An environment whose quota activation command fails with a stderr
that contains the File-exists marker. -/
def envFileExists : Env :=
  { envQOFail with
    run := fun cmd =>
      if cmd = quotaonCmd ("/m") then
        ⟨1, (""), ("quotaon: cannot open //aquota.project: File exists"), some ("exit status 1")⟩
      else ⟨0, (""), (""), none⟩ }

/-- An environment whose kernel quota listing already contains the
largest uint32 project identifier, which is also the last marker. -/
def envWrapIDs : Env :=
  { envQOFail with loadQuotaIDs := .ok ({4294967295}, 4294967295) }

/-- An environment with a harmless quota listing, used where the
allocator loads nothing. -/
def envAlloc : Env :=
  { envQOFail with loadQuotaIDs := .ok (∅, 0) }

/-- An environment whose mount table holds two entries backed by the
same device: a longer bind mountpoint carrying prjquota and a shorter
one without it. -/
def envTwoMounts : Env :=
  { envQOFail with
    procMounts := .ok ("/dev/x /a/b ext4 rw,prjquota 0 0\n/dev/x /a ext4 rw,relatime 0 0")
    getDevID := fun p => if p = ("/a") ∨ p = ("/a/b") then .ok 7 else .error ("no") }

/-- An environment whose lsattr output tags the directory /data/c1 with
project id 16777256. -/
def envLsattr : Env :=
  { envQOFail with
    run := fun cmd =>
      if cmd = lsattrCmd ("/data") then
        ⟨0, ("16777256 --------------e---P /data/c1\n"), (""), none⟩
      else ⟨0, (""), (""), none⟩ }

/-- An environment resolving every path to the xfs filesystem kind. -/
def envXfs : Env :=
  { envQOFail with getMountpointFstype := fun _ => .ok xfsFS }

/-- Overwriting insertion into the mountpoint cache is observed by a
lookup at the same key. -/
lemma lookupMP_insertMP (m : List (Nat × String)) (k : Nat) (v : String) :
    lookupMP (insertMP m k v) k = some v := by
  induction m with
  | nil => simp [insertMP, lookupMP]
  | cons h t ih =>
    obtain ⟨k', v'⟩ := h
    by_cases hk : k' = k
    · subst hk; simp [insertMP, lookupMP]
    · simp [insertMP, lookupMP, hk, ih]

/-- C10: the recursive binding variant always issues the ext-family
recursive tagging command chattr -R -p id +P dir, for every
environment (hence every filesystem kind), and never the xfs tool —
unlike the non-recursive binder, which on an xfs directory issues the
xfs tagging command instead. -/
theorem setFileAttrRecursive_always_chattrR (env : Env) (s : DriverState)
    (dir : String) (quotaID qid : Nat) :
    (SetFileAttrRecursive env dir quotaID).2 = [chattrRCmd quotaID dir]
    ∧ (env.getMountpointFstype dir = .ok xfsFS → qid ≠ 0 →
        (SetSubtree env s dir qid).map (fun t => t.2.2) = some [xfsProjectCmd qid dir]) := by
  constructor
  · simp [SetFileAttrRecursive]
  · intro hft hq
    simp [SetSubtree, hq, setSubtreeTag, hft]

/-- C10 witness: concrete instantiation on an xfs environment. -/
theorem setFileAttrRecursive_always_chattrR_witness :
    (SetFileAttrRecursive envXfs ("/d") 5).2 = [chattrRCmd 5 ("/d")]
    ∧ (SetSubtree envXfs ⟨∅, [], 0⟩ ("/d") 5).map (fun t => t.2.2) = some [xfsProjectCmd 5 ("/d")] :=
  ⟨(setFileAttrRecursive_always_chattrR envXfs ⟨∅, [], 0⟩ ("/d") 5 5).1,
   (setFileAttrRecursive_always_chattrR envXfs ⟨∅, [], 0⟩ ("/d") 5 5).2 (by decide) (by decide)⟩

/-- C6 counterexample: on an ext4 mountpoint with requested limit 5,
the issued command is setquota -P 100 0 5 0 0 /m, whose soft block
limit argument (position 3) is the literal zero, not the requested
limit — the claim that soft and hard block limits are both set equal
to the requested limit is false. -/
theorem setQuota_soft_limit_cex :
    (setQuota envQOFail 100 5 ("/m")).2 = [["setquota", "-P", "100", "0", "5", "0", "0", "/m"]]
    ∧ List.getD (setquotaCmd 100 5 ("/m")) 3 ("") ≠ toString 5 := by decide

/-- C6 amended: for every quota identifier, block limit and mountpoint,
setQuota issues the filesystem-specific block-limit command with the
hard block limit set to the requested limit, the soft block limit zero
(ext family) or unset (xfs), and both inode limits zero. -/
theorem setQuota_cmd_shape (env : Env) (id limit : Nat) (mp ft : String)
    (hft : env.getMountpointFstype mp = .ok ft) :
    (ft ≠ xfsFS → (setQuota env id limit mp).2 = [setquotaCmd id limit mp])
    ∧ (ft = xfsFS → (setQuota env id limit mp).2 = [xfsLimitCmd id limit mp]) := by
  constructor
  · intro h; simp [setQuota, hft, h]
  · intro h; simp [setQuota, hft, h]

/-- C6 witness: concrete ext4 instantiation of the amended command
shape. -/
theorem setQuota_cmd_shape_witness :
    (setQuota envQOFail 100 5 ("/m")).2 = [setquotaCmd 100 5 ("/m")] :=
  (setQuota_cmd_shape envQOFail 100 5 ("/m") ext4FS (by decide)).1 (by decide)

/-- C9: when the requested identifier is zero and the tag reader
reports a nonzero existing identifier, SetSubtree returns that
identifier with the state unchanged (no allocator call) and the only
command run is the lsattr read issued by the tag reader — no tagging
command. -/
theorem setSubtree_reuses_existing_id (env : Env) (s : DriverState) (dir : String)
    (hid : 0 < (GetQuotaIDInFileAttr env dir).1) :
    SetSubtree env s dir 0 =
      some (.ok (GetQuotaIDInFileAttr env dir).1, s, (GetQuotaIDInFileAttr env dir).2)
    ∧ (GetQuotaIDInFileAttr env dir).2 = [lsattrCmd (pathDir dir)] := by
  constructor
  · simp [SetSubtree, hid]
  · simp only [GetQuotaIDInFileAttr]
    cases (env.run (lsattrCmd (pathDir dir))).err <;> simp

/-- C9 witness: the directory /data/c1 already tagged with 16777256 is
re-bound with requested id zero and keeps its identifier. -/
theorem setSubtree_reuses_existing_id_witness :
    SetSubtree envLsattr ⟨∅, [], 0⟩ ("/data/c1") 0 =
      some (.ok (GetQuotaIDInFileAttr envLsattr ("/data/c1")).1, ⟨∅, [], 0⟩,
            (GetQuotaIDInFileAttr envLsattr ("/data/c1")).2)
    ∧ (GetQuotaIDInFileAttr envLsattr ("/data/c1")).2 = [lsattrCmd (pathDir ("/data/c1"))] :=
  setSubtree_reuses_existing_id envLsattr ⟨∅, [], 0⟩ ("/data/c1") (by decide)

/-- The activation stage treats a failure whose stderr carries the
File-exists marker as success, returning the mountpoint and caching
the device binding. -/
lemma enforceActivate_fileExists (env : Env) (s : DriverState) (devID : Nat)
    (dir mp ft : String) (e : String) (tr : List (List String))
    (hft : env.getMountpointFstype dir = .ok ft)
    (hxfs : ft ≠ xfsFS)
    (herr : (env.run (quotaonCmd mp)).err = some e)
    (hfe : strContainsSub (env.run (quotaonCmd mp)).stderr fileExistsMark = true) :
    enforceActivate env s devID dir mp tr =
      (.ok mp, { s with mountPoints := insertMP s.mountPoints devID mp },
       tr ++ [quotaonCmd mp]) := by
  simp [enforceActivate, hft, hxfs, herr, hfe]

/-- The activation stage, on a failure whose stderr lacks the
File-exists marker, records the empty string for the device and
returns it with a nil error: the Go code wraps the outer err, which is
nil at that point, and wrapping nil yields nil. -/
lemma enforceActivate_failure (env : Env) (s : DriverState) (devID : Nat)
    (dir mp ft : String) (e : String) (tr : List (List String))
    (hft : env.getMountpointFstype dir = .ok ft)
    (hxfs : ft ≠ xfsFS)
    (herr : (env.run (quotaonCmd mp)).err = some e)
    (hfe : strContainsSub (env.run (quotaonCmd mp)).stderr fileExistsMark = false) :
    enforceActivate env s devID dir mp tr =
      (.ok (""),
       { s with mountPoints := insertMP s.mountPoints devID ("") },
       tr ++ [quotaonCmd mp]) := by
  simp [enforceActivate, hft, hxfs, herr, hfe]

/-- Whenever the activation stage returns a mountpoint successfully, it
has recorded that mountpoint in the per-device cache. -/
lemma enforceActivate_ok_cached (env : Env) (s : DriverState) (devID : Nat)
    (dir mp0 mp : String) (tr0 tr : List (List String)) (s1 : DriverState)
    (h : enforceActivate env s devID dir mp0 tr0 = (.ok mp, s1, tr)) :
    lookupMP s1.mountPoints devID = some mp := by
  unfold enforceActivate at h
  split at h
  · simp at h
  · split at h
    · split at h
      · simp only [Prod.mk.injEq, Except.ok.injEq] at h
        obtain ⟨h1, h2, -⟩ := h
        subst h1; subst h2
        simp [lookupMP_insertMP]
      · split at h
        · simp only [Prod.mk.injEq, Except.ok.injEq] at h
          obtain ⟨h1, h2, -⟩ := h
          subst h1; subst h2
          simp [lookupMP_insertMP]
        · simp only [Prod.mk.injEq, Except.ok.injEq] at h
          obtain ⟨h1, h2, -⟩ := h
          subst h1; subst h2
          simp [lookupMP_insertMP]
    · simp only [Prod.mk.injEq, Except.ok.injEq] at h
      obtain ⟨h1, h2, -⟩ := h
      subst h1; subst h2
      simp [lookupMP_insertMP]

/-- Whenever `EnforceQuota` succeeds, the device of the directory maps
to the returned mountpoint in the cache of the resulting state. -/
lemma enforceQuota_ok_cached (env : Env) (s : DriverState) (dir mp : String)
    (s1 : DriverState) (tr : List (List String)) (devID : Nat)
    (h : EnforceQuota env s dir = (.ok mp, s1, tr))
    (hdev : env.getDevID dir = .ok devID) :
    lookupMP s1.mountPoints devID = some mp := by
  unfold EnforceQuota at h
  split at h
  · next e heq => rw [hdev] at heq; simp at heq
  · next d heq =>
    rw [hdev] at heq
    have hd : d = devID := by simpa [Except.ok.injEq] using heq.symm
    rw [hd] at h
    split at h
    · simp at h
    · split at h
      · next m hm =>
        simp only [Prod.mk.injEq, Except.ok.injEq] at h
        obtain ⟨h1, h2, -⟩ := h
        subst h1; subst h2
        exact hm
      · split at h
        · simp at h
        · split at h
          · exact enforceActivate_ok_cached env s devID dir _ mp _ tr s1 h
          · split at h
            · simp at h
            · exact enforceActivate_ok_cached env s devID dir _ mp _ tr s1 h

/-- C4: once `EnforceQuota` has succeeded for the device backing a
directory, a subsequent call for any directory on the same device
(whose stat and pre-check succeed) returns the same mountpoint with
the state unchanged and runs no command at all — in particular no
remount and no activation. -/
theorem enforceQuota_idempotent (env : Env) (s s1 : DriverState) (dir dir2 mp : String)
    (devID l2 : Nat) (tr : List (List String))
    (h1 : EnforceQuota env s dir = (.ok mp, s1, tr))
    (hdev : env.getDevID dir = .ok devID)
    (hdev2 : env.getDevID dir2 = .ok devID)
    (hlim2 : env.setDevLimit dir2 devID = .ok l2) :
    EnforceQuota env s1 dir2 = (.ok mp, s1, []) := by
  have hc := enforceQuota_ok_cached env s dir mp s1 tr devID h1 hdev
  simp [EnforceQuota, hdev2, hlim2, hc]

/-- C4 witness: a first call that remounts and activates device 7,
followed by a second call that returns the cached mountpoint. -/
theorem enforceQuota_idempotent_witness :
    EnforceQuota envAllOk ⟨∅, [(7, ("/m"))], 0⟩ ("/d") =
      (.ok ("/m"), ⟨∅, [(7, ("/m"))], 0⟩, []) :=
  enforceQuota_idempotent envAllOk ⟨∅, [], 0⟩ ⟨∅, [(7, ("/m"))], 0⟩ ("/d") ("/d") ("/m") 7 0
    [remountCmd ("/m"), quotaonCmd ("/m")] (by decide) (by decide) (by decide) (by decide)

/-- C8: when the quota activation command fails but its stderr contains
the File-exists substring, `EnforceQuota` treats activation as
successful — it returns the resolved mountpoint with no error and
caches the device-to-mountpoint binding. -/
theorem enforceQuota_fileExists_success (env : Env) (s : DriverState) (dir mp ft fs2 : String)
    (devID l : Nat) (hq : Bool) (e : String)
    (hdev : env.getDevID dir = .ok devID)
    (hlim : env.setDevLimit dir devID = .ok l)
    (hmiss : lookupMP s.mountPoints devID = none)
    (hcm : CheckMountpoint env devID = (mp, hq, fs2))
    (hmp : mp ≠ (""))
    (hrem : hq = true ∨ (env.run (remountCmd mp)).err = none)
    (hft : env.getMountpointFstype dir = .ok ft)
    (hxfs : ft ≠ xfsFS)
    (herr : (env.run (quotaonCmd mp)).err = some e)
    (hfe : strContainsSub (env.run (quotaonCmd mp)).stderr fileExistsMark = true) :
    EnforceQuota env s dir =
      (.ok mp, { s with mountPoints := insertMP s.mountPoints devID mp },
       (if hq then [] else [remountCmd mp]) ++ [quotaonCmd mp]) := by
  cases hq with
  | true =>
    have hact := enforceActivate_fileExists env s devID dir mp ft e [] hft hxfs herr hfe
    simp [EnforceQuota, hdev, hlim, hmiss, hcm, hmp, hact]
  | false =>
    rcases hrem with hrem | hrem
    · simp at hrem
    · have hact := enforceActivate_fileExists env s devID dir mp ft e [remountCmd mp] hft hxfs herr hfe
      simp [EnforceQuota, hdev, hlim, hmiss, hcm, hmp, hrem, hact]

/-- C8 witness: device 7, activation fails with a File-exists stderr,
and the call succeeds, caching /m for the device. -/
theorem enforceQuota_fileExists_success_witness :
    EnforceQuota envFileExists ⟨∅, [], 0⟩ ("/d") =
      (.ok ("/m"),
       { quotaIDs := ∅, mountPoints := insertMP [] 7 ("/m"), lastID := 0 },
       (if false then [] else [remountCmd ("/m")]) ++ [quotaonCmd ("/m")]) :=
  enforceQuota_fileExists_success envFileExists ⟨∅, [], 0⟩ ("/d") ("/m") ext4FS ext4FS 7 0 false
    ("exit status 1") (by decide) (by decide) (by decide) (by decide) (by decide)
    (Or.inr (by decide)) (by decide) (by decide) (by decide) (by decide)

/-- C2 counterexample: with a fresh device whose activation fails with
an unrelated stderr, the first call stores the empty string in the
cache and itself returns the empty mountpoint with nil error (the Go
code wraps the outer nil err, not the quotaon err2, and wrapping nil
yields nil); a subsequent call for the same device returns that cached
empty mountpoint with nil error and runs no command at all — it does
not retry the enablement sequence as the claim states. -/
theorem enforceQuota_no_retry_cex :
    EnforceQuota envQOFail ⟨∅, [], 0⟩ ("/d") =
      (.ok (""), ⟨∅, [(7, (""))], 0⟩, [remountCmd ("/m"), quotaonCmd ("/m")])
    ∧ EnforceQuota envQOFail ⟨∅, [(7, (""))], 0⟩ ("/d") =
      (.ok (""), ⟨∅, [(7, (""))], 0⟩, []) := by decide

/-- C2 amended: when quota activation fails for a reason other than a
File-exists stderr, `EnforceQuota` stores the empty string as the
cached mountpoint entry of the device and returns the empty mountpoint
with a nil error (line 92 wraps the outer err, nil at that point, so
no error is surfaced); a subsequent call for any directory on the same
device then returns the cached empty mountpoint with nil error and
performs no tool invocation — it does not retry the enablement
sequence. -/
theorem enforceQuota_activation_failure (env : Env) (s : DriverState) (dir mp ft fs2 : String)
    (devID l : Nat) (hq : Bool) (e : String)
    (hdev : env.getDevID dir = .ok devID)
    (hlim : env.setDevLimit dir devID = .ok l)
    (hmiss : lookupMP s.mountPoints devID = none)
    (hcm : CheckMountpoint env devID = (mp, hq, fs2))
    (hmp : mp ≠ (""))
    (hrem : hq = true ∨ (env.run (remountCmd mp)).err = none)
    (hft : env.getMountpointFstype dir = .ok ft)
    (hxfs : ft ≠ xfsFS)
    (herr : (env.run (quotaonCmd mp)).err = some e)
    (hfe : strContainsSub (env.run (quotaonCmd mp)).stderr fileExistsMark = false) :
    EnforceQuota env s dir =
      (.ok (""),
       { s with mountPoints := insertMP s.mountPoints devID ("") },
       (if hq then [] else [remountCmd mp]) ++ [quotaonCmd mp])
    ∧ (∀ dir2 l2, env.getDevID dir2 = .ok devID → env.setDevLimit dir2 devID = .ok l2 →
        EnforceQuota env { s with mountPoints := insertMP s.mountPoints devID ("") } dir2 =
          (.ok (""), { s with mountPoints := insertMP s.mountPoints devID ("") }, [])) := by
  constructor
  · cases hq with
    | true =>
      have hact := enforceActivate_failure env s devID dir mp ft e [] hft hxfs herr hfe
      simp [EnforceQuota, hdev, hlim, hmiss, hcm, hmp, hact]
    | false =>
      rcases hrem with hrem | hrem
      · simp at hrem
      · have hact := enforceActivate_failure env s devID dir mp ft e [remountCmd mp] hft hxfs herr hfe
        simp [EnforceQuota, hdev, hlim, hmiss, hcm, hmp, hrem, hact]
  · intro dir2 l2 hdev2 hlim2
    simp [EnforceQuota, hdev2, hlim2, lookupMP_insertMP]

/-- C2 witness: concrete instantiation of the amended failure and
no-retry behaviour on device 7. -/
theorem enforceQuota_activation_failure_witness :
    EnforceQuota envQOFail ⟨∅, [], 0⟩ ("/d") =
      (.ok (""),
       { quotaIDs := ∅, mountPoints := insertMP [] 7 (""), lastID := 0 },
       (if false then [] else [remountCmd ("/m")]) ++ [quotaonCmd ("/m")])
    ∧ EnforceQuota envQOFail { quotaIDs := ∅, mountPoints := insertMP [] 7 (""), lastID := 0 } ("/d") =
      (.ok (""), { quotaIDs := ∅, mountPoints := insertMP [] 7 (""), lastID := 0 }, []) :=
  ⟨(enforceQuota_activation_failure envQOFail ⟨∅, [], 0⟩ ("/d") ("/m") ext4FS ext4FS 7 0 false
      ("exit status 1") (by decide) (by decide) (by decide) (by decide) (by decide)
      (Or.inr (by decide)) (by decide) (by decide) (by decide) (by decide)).1,
   (enforceQuota_activation_failure envQOFail ⟨∅, [], 0⟩ ("/d") ("/m") ext4FS ext4FS 7 0 false
      ("exit status 1") (by decide) (by decide) (by decide) (by decide) (by decide)
      (Or.inr (by decide)) (by decide) (by decide) (by decide) (by decide)).2
     ("/d") 0 (by decide) (by decide)⟩

/-- C1 counterexample: on a fresh device that needs remounting, a
request whose size exceeds the budget still runs the remount and
activation commands before failing the capacity check — the claim
that no tool invocation besides the capacity check happens is false. -/
theorem setDiskQuota_capacity_cex :
    SetDiskQuota envAllOk ⟨∅, [], 0⟩ ("/d") ("10G") 0 =
      some (.error ⟨.capacity, ("failed to check device limit: exceed the maximum size of device backing /d")⟩,
            ⟨∅, [(7, ("/m"))], 0⟩, [remountCmd ("/m"), quotaonCmd ("/m")]) := by decide

/-- C1 amended: when the requested size exceeds the device budget,
`SetDiskQuota` fails with a capacity-violation error and runs no
tagging or limit-setting command — the only commands run are those of
the preceding enforcement step, which happens before the capacity
check. -/
theorem setDiskQuota_capacity_error (env : Env) (s s1 : DriverState) (dir size mp : String)
    (tr1 : List (List String)) (limit qid : Nat)
    (henf : EnforceQuota env s dir = (.ok mp, s1, tr1))
    (hmp : mp ≠ (""))
    (hkb : env.toKilobytes size = .ok limit)
    (hbud : env.devBudget dir < limit * 1024) :
    SetDiskQuota env s dir size qid =
      some (.error ⟨.capacity,
              ("failed to check device limit: ") ++ (("exceed the maximum size of device backing ") ++ dir)⟩,
            s1, tr1) := by
  simp [SetDiskQuota, henf, hmp, hkb, checkDevLimit, hbud]

/-- C1 witness: with the device already cached, an oversize request
fails the capacity check while running no command at all. -/
theorem setDiskQuota_capacity_error_witness :
    SetDiskQuota envAllOk ⟨∅, [(7, ("/m"))], 0⟩ ("/d") ("10G") 0 =
      some (.error ⟨.capacity,
              ("failed to check device limit: ") ++ (("exceed the maximum size of device backing ") ++ ("/d"))⟩,
            ⟨∅, [(7, ("/m"))], 0⟩, []) :=
  setDiskQuota_capacity_error envAllOk ⟨∅, [(7, ("/m"))], 0⟩ ⟨∅, [(7, ("/m"))], 0⟩
    ("/d") ("10G") ("/m") [] 10485760 0 (by decide) (by decide) (by decide) (by decide)

/-- A successful scan always returns a candidate outside the used-id
set. -/
lemma scanFree_some_not_mem (ids : Finset Nat) :
    ∀ fuel id r, scanFree ids fuel id = some r → r ∉ ids := by
  intro fuel
  induction fuel with
  | zero => intro id r h; simp [scanFree] at h
  | succ n ih =>
    intro id r h
    simp only [scanFree] at h
    split at h
    · exact ih _ _ h
    · next hc =>
      obtain rfl : scanStep id = r := by simpa using h
      exact hc

/-- If some identifier strictly between the current candidate (and the
floor) and the top of the uint32 range is free, the scan terminates on
a free identifier above the floor before wrapping. -/
lemma scanFree_finds (ids : Finset Nat) (j : Nat) (hjU : j < U32) (hjf : j ∉ ids) :
    ∀ fuel id, id < j → QuotaMinID < j → j - id ≤ fuel →
      ∃ r, scanFree ids fuel id = some r ∧ QuotaMinID < r ∧ r ∉ ids := by
  have hU : U32 = 4294967296 := rfl
  have hQ : QuotaMinID = 16777216 := rfl
  intro fuel
  induction fuel with
  | zero => intro id h1 h2 h3; omega
  | succ n ih =>
    intro id h1 h2 h3
    have hstep : scanStep id = (if id < QuotaMinID then QuotaMinID else id) + 1 := by
      unfold scanStep
      apply Nat.mod_eq_of_lt
      split <;> omega
    have hle : id < scanStep id ∧ QuotaMinID < scanStep id ∧ scanStep id ≤ j := by
      rw [hstep]; split <;> omega
    by_cases hc : scanStep id ∈ ids
    · have hne : scanStep id ≠ j := fun he => hjf (he ▸ hc)
      obtain ⟨r, hr, hrq, hrn⟩ := ih (scanStep id) (by omega) h2 (by omega)
      refine ⟨r, ?_, hrq, hrn⟩
      simp only [scanFree]
      rw [if_pos hc]
      exact hr
    · refine ⟨scanStep id, ?_, by omega, hc⟩
      simp only [scanFree]
      rw [if_neg hc]

/-- An allocation from a state whose marker is nonzero (so no reload
happens) only returns identifiers outside the current set. -/
lemma getNextQuotaID_fresh (env : Env) (s : DriverState) (id2 : Nat) (s3 : DriverState)
    (hns : s.lastID ≠ 0)
    (h : GetNextQuotaID env s = .ok (some (id2, s3))) : id2 ∉ s.quotaIDs := by
  have hl : gnqLoad env s = .ok s := by simp [gnqLoad, hns]
  unfold GetNextQuotaID at h
  split at h
  · next e heq => rw [hl] at heq; simp at heq
  · next t' heq =>
    rw [hl] at heq
    have ht : t' = s := by simpa using heq.symm
    rw [ht] at h
    split at h
    · simp at h
    · next r2 hsf =>
      have hmem := scanFree_some_not_mem s.quotaIDs U32 s.lastID r2 hsf
      have h12 : r2 = id2 := by
        simp only [Except.ok.injEq, Option.some.injEq, Prod.mk.injEq] at h
        exact h.1
      exact h12 ▸ hmem

/-- C3 counterexample: with a kernel quota listing that already holds
the largest uint32 project identifier 4294967295 (also the loaded
last marker), the first allocation wraps the uint32 increment and
returns 0, which is below the minimum floor; because the stored marker
is then 0, the next call reloads and returns 0 once more — two calls
return the same identifier, and the returned identifier is not above
the floor. -/
theorem getNextQuotaID_wrap_cex :
    GetNextQuotaID envWrapIDs ⟨∅, [], 0⟩ = .ok (some (0, ⟨{0, 4294967295}, [], 0⟩))
    ∧ GetNextQuotaID envWrapIDs ⟨{0, 4294967295}, [], 0⟩ = .ok (some (0, ⟨{0, 4294967295}, [], 0⟩))
    ∧ 0 < QuotaMinID := by decide

/-- C3 amended: provided some identifier above both the loaded marker
and the floor and below the uint32 bound is free (so the scan does not
wrap), every allocation returns an identifier absent from the set at
the start of its scan, inserts it into the set and updates the marker
before returning, the identifier exceeds the minimum floor, and an
immediately following allocation can never return the same
identifier. -/
theorem getNextQuotaID_allocates (env : Env) (s t : DriverState) (j : Nat)
    (hload : gnqLoad env s = .ok t)
    (hlast : t.lastID < j) (hfloor : QuotaMinID < j) (hjU : j < U32)
    (hjf : j ∉ t.quotaIDs) :
    ∃ id s2, GetNextQuotaID env s = .ok (some (id, s2))
      ∧ id ∉ t.quotaIDs
      ∧ s2.quotaIDs = insert id t.quotaIDs
      ∧ s2.lastID = id
      ∧ QuotaMinID < id
      ∧ ∀ id2 s3, GetNextQuotaID env s2 = .ok (some (id2, s3)) → id2 ≠ id := by
  have hU : U32 = 4294967296 := rfl
  have hQ : QuotaMinID = 16777216 := rfl
  obtain ⟨r, hr, hrq, hrn⟩ :=
    scanFree_finds t.quotaIDs j hjU hjf U32 t.lastID hlast hfloor (by omega)
  have hr0 : r ≠ 0 := by omega
  refine ⟨r, { t with quotaIDs := insert r t.quotaIDs, lastID := r }, ?_, hrn, rfl, rfl, hrq, ?_⟩
  · simp [GetNextQuotaID, hload, hr]
  · intro id2 s3 h2
    have hmem := getNextQuotaID_fresh env _ id2 s3 hr0 h2
    intro hcontra
    rw [hcontra] at hmem
    exact hmem (by simp)

/-- C3 witness: from a state with marker at the floor and an empty id
set, the allocation succeeds and satisfies every amended property. -/
theorem getNextQuotaID_allocates_witness :
    ∃ id s2, GetNextQuotaID envAlloc ⟨∅, [], 16777216⟩ = .ok (some (id, s2))
      ∧ id ∉ (⟨∅, [], 16777216⟩ : DriverState).quotaIDs
      ∧ s2.quotaIDs = insert id (⟨∅, [], 16777216⟩ : DriverState).quotaIDs
      ∧ s2.lastID = id
      ∧ QuotaMinID < id
      ∧ ∀ id2 s3, GetNextQuotaID envAlloc s2 = .ok (some (id2, s3)) → id2 ≠ id :=
  getNextQuotaID_allocates envAlloc ⟨∅, [], 16777216⟩ ⟨∅, [], 16777216⟩ 16777217
    (by decide) (by decide) (by decide) (by decide) (by decide)

/-- A mount-table line matched by none of the first three guards
leaves the scan accumulator unchanged. -/
lemma scanLine_skip (env : Env) (devID : Nat) (acc : ScanAcc) (line : String)
    (h : lineMatchMP env devID line = none) :
    scanLine env devID acc line = acc := by
  by_cases h6 : (splitS (' ') line).length = 6
  · by_cases hsp : supportedFS (getF (splitS (' ') line) 2) = true
    · by_cases hdv : devIDof env (getF (splitS (' ') line) 1) = devID
      · exfalso
        unfold lineMatchMP at h
        rw [if_pos ⟨h6, hsp, hdv⟩] at h
        simp at h
      · unfold scanLine
        rw [if_neg (by simp [h6]), if_neg (by simp [hsp]), if_pos hdv]
    · have hsp2 : supportedFS (getF (splitS (' ') line) 2) = false := by
        cases hb : supportedFS (getF (splitS (' ') line) 2) with
        | true => exact absurd hb hsp
        | false => rfl
      unfold scanLine
      rw [if_neg (by simp [h6]), if_pos hsp2]
  · unfold scanLine
    rw [if_pos h6]

/-- A mount-table line matched by the first three guards either gets
skipped by the shortest-mountpoint check or overwrites the accumulator
with its mountpoint, fstype, and the sticky quota flag. -/
lemma scanLine_hit (env : Env) (devID : Nat) (acc : ScanAcc) (line m : String)
    (h : lineMatchMP env devID line = some m) :
    scanLine env devID acc line =
      if acc.mountPoint ≠ ("") ∧ acc.mountPoint.length < m.length then acc
      else
        { enableQuota := acc.enableQuota || hasPrjOption (getF (splitS (' ') line) 3)
          mountPoint := m
          fsType := getF (splitS (' ') line) 2 } := by
  by_cases hc : (splitS (' ') line).length = 6
      ∧ supportedFS (getF (splitS (' ') line) 2) = true
      ∧ devIDof env (getF (splitS (' ') line) 1) = devID
  · obtain ⟨h6, hsp, hdv⟩ := hc
    have hm : getF (splitS (' ') line) 1 = m := by
      unfold lineMatchMP at h
      rw [if_pos ⟨h6, hsp, hdv⟩] at h
      simpa using h
    unfold scanLine
    rw [if_neg (by simp [h6]), if_neg (by simp [hsp]), if_neg (by simp [hdv]), hm]
  · exfalso
    unfold lineMatchMP at h
    rw [if_neg hc] at h
    simp at h

/-- Invariant of the `CheckMountpoint` fold: with no matching entries
the accumulator is untouched; starting from a nonempty current best,
the final mountpoint is the current best or one of the matches, its
length never grows, and it is no longer than any match; starting from
the empty sentinel with at least one match, the final mountpoint is a
match of minimal length. -/
lemma scanFold_shortest (env : Env) (devID : Nat) :
    ∀ (lines : List String) (acc : ScanAcc),
      (∀ m ∈ mountMatches env devID lines, m ≠ ("")) →
      ((mountMatches env devID lines = [] →
          lines.foldl (scanLine env devID) acc = acc)
       ∧ (acc.mountPoint ≠ ("") →
          ((lines.foldl (scanLine env devID) acc).mountPoint = acc.mountPoint
            ∨ (lines.foldl (scanLine env devID) acc).mountPoint ∈ mountMatches env devID lines)
          ∧ (lines.foldl (scanLine env devID) acc).mountPoint.length ≤ acc.mountPoint.length
          ∧ (∀ m ∈ mountMatches env devID lines,
              (lines.foldl (scanLine env devID) acc).mountPoint.length ≤ m.length))
       ∧ (acc.mountPoint = ("") → mountMatches env devID lines ≠ [] →
          (lines.foldl (scanLine env devID) acc).mountPoint ∈ mountMatches env devID lines
          ∧ (∀ m ∈ mountMatches env devID lines,
              (lines.foldl (scanLine env devID) acc).mountPoint.length ≤ m.length))) := by
  intro lines
  induction lines with
  | nil =>
    intro acc hne
    refine ⟨fun _ => rfl, fun h0 => ⟨Or.inl rfl, le_refl _, by simp [mountMatches]⟩, fun h0 hns => ?_⟩
    exact absurd (by simp [mountMatches]) hns
  | cons line rest ih =>
    intro acc hne
    cases hl : lineMatchMP env devID line with
    | none =>
      have hmm : mountMatches env devID (line :: rest) = mountMatches env devID rest := by
        simp [mountMatches, List.filterMap_cons, hl]
      have hstep : scanLine env devID acc line = acc := scanLine_skip env devID acc line hl
      have hne' : ∀ m ∈ mountMatches env devID rest, m ≠ ("") := by
        intro m hm; exact hne m (by rw [hmm]; exact hm)
      have := ih acc hne'
      rw [List.foldl_cons, hstep, hmm]
      exact this
    | some m =>
      have hmm : mountMatches env devID (line :: rest) = m :: mountMatches env devID rest := by
        simp [mountMatches, List.filterMap_cons, hl]
      have hm0 : m ≠ ("") := hne m (by rw [hmm]; exact List.mem_cons_self m _)
      have hne' : ∀ m' ∈ mountMatches env devID rest, m' ≠ ("") := by
        intro m' hm'; exact hne m' (by rw [hmm]; exact List.mem_cons_of_mem m hm')
      have hstep := scanLine_hit env devID acc line m hl
      rw [List.foldl_cons, hmm]
      by_cases hskip : acc.mountPoint ≠ ("") ∧ acc.mountPoint.length < m.length
      · rw [if_pos hskip] at hstep
        rw [hstep]
        obtain ⟨ih1, ih2, ih3⟩ := ih acc hne'
        obtain ⟨pmem, plen, pall⟩ := ih2 hskip.1
        refine ⟨fun hx => absurd hx (by simp), fun h0 => ⟨?_, plen, ?_⟩, fun h0 _ => absurd h0 hskip.1⟩
        · rcases pmem with hp | hp
          · exact Or.inl hp
          · exact Or.inr (List.mem_cons_of_mem m hp)
        · intro m' hm'
          rcases List.mem_cons.mp hm' with rfl | hm'
          · exact le_of_lt (lt_of_le_of_lt plen hskip.2)
          · exact pall m' hm'
      · rw [if_neg hskip] at hstep
        rw [hstep]
        set acc2 : ScanAcc :=
          { enableQuota := acc.enableQuota || hasPrjOption (getF (splitS (' ') line) 3)
            mountPoint := m
            fsType := getF (splitS (' ') line) 2 } with hacc2
        obtain ⟨ih1, ih2, ih3⟩ := ih acc2 hne'
        have hm2 : acc2.mountPoint = m := rfl
        obtain ⟨pmem, plen, pall⟩ := ih2 (by rw [hm2]; exact hm0)
        have hmem2 : (rest.foldl (scanLine env devID) acc2).mountPoint ∈ m :: mountMatches env devID rest := by
          rcases pmem with hp | hp
          · rw [hm2] at hp; exact hp ▸ List.mem_cons_self m _
          · exact List.mem_cons_of_mem m hp
        have hall2 : ∀ m' ∈ m :: mountMatches env devID rest,
            (rest.foldl (scanLine env devID) acc2).mountPoint.length ≤ m'.length := by
          intro m' hm'
          rcases List.mem_cons.mp hm' with rfl | hm'
          · rw [hm2] at plen; exact plen
          · exact pall m' hm'
        refine ⟨fun hx => absurd hx (by simp), fun h0 => ⟨Or.inr hmem2, ?_, hall2⟩, fun h0 _ => ⟨hmem2, hall2⟩⟩
        · have hlen : m.length ≤ acc.mountPoint.length := by
            by_contra hcon
            exact hskip ⟨h0, by omega⟩
          rw [hm2] at plen
          exact le_trans plen hlen

/-- C5: when more than one six-field mount-table entry of a supported
filesystem kind has a mountpoint on the queried device (all genuine
nonempty paths), `CheckMountpoint` returns one of those mountpoints,
of minimal length among them. -/
theorem checkMountpoint_shortest (env : Env) (devID : Nat) (out : String)
    (hout : env.procMounts = Except.ok out)
    (hmany : 1 < (mountMatches env devID (splitS ('\n') out)).length)
    (hne : ∀ m ∈ mountMatches env devID (splitS ('\n') out), m ≠ ("")) :
    (CheckMountpoint env devID).1 ∈ mountMatches env devID (splitS ('\n') out)
    ∧ ∀ m ∈ mountMatches env devID (splitS ('\n') out),
        (CheckMountpoint env devID).1.length ≤ m.length := by
  have hns : mountMatches env devID (splitS ('\n') out) ≠ [] := by
    intro hx; rw [hx] at hmany; simp at hmany
  obtain ⟨-, -, ih3⟩ := scanFold_shortest env devID (splitS ('\n') out) ⟨false, (""), ("")⟩ hne
  obtain ⟨hmem, hall⟩ := ih3 rfl hns
  simp only [CheckMountpoint, hout]
  exact ⟨hmem, hall⟩

/-- C5 witness: a table with a longer and a shorter mountpoint for
device 7; the scan returns a match of minimal length. -/
theorem checkMountpoint_shortest_witness :
    (CheckMountpoint envTwoMounts 7).1 ∈
      mountMatches envTwoMounts 7 (splitS ('\n') ("/dev/x /a/b ext4 rw,prjquota 0 0\n/dev/x /a ext4 rw,relatime 0 0"))
    ∧ ∀ m ∈ mountMatches envTwoMounts 7
        (splitS ('\n') ("/dev/x /a/b ext4 rw,prjquota 0 0\n/dev/x /a ext4 rw,relatime 0 0")),
        (CheckMountpoint envTwoMounts 7).1.length ≤ m.length :=
  checkMountpoint_shortest envTwoMounts 7
    ("/dev/x /a/b ext4 rw,prjquota 0 0\n/dev/x /a ext4 rw,relatime 0 0")
    (by decide) (by decide) (by decide)

/-- The quota flag computed by the `CheckMountpoint` fold is the
disjunction of the prjquota tests over the matching entries the loop
does not skip. -/
lemma scanFold_quotaFlag (env : Env) (devID : Nat) :
    ∀ (lines : List String) (acc : ScanAcc),
      (lines.foldl (scanLine env devID) acc).enableQuota
        = (acc.enableQuota || (acceptedOpts env devID acc.mountPoint lines).any hasPrjOption) := by
  intro lines
  induction lines with
  | nil => intro acc; simp [acceptedOpts]
  | cons line rest ih =>
    intro acc
    rw [List.foldl_cons]
    cases hl : lineMatchMP env devID line with
    | none =>
      rw [scanLine_skip env devID acc line hl, ih]
      simp [acceptedOpts, hl]
    | some m =>
      have hstep := scanLine_hit env devID acc line m hl
      by_cases hskip : acc.mountPoint ≠ ("") ∧ acc.mountPoint.length < m.length
      · rw [if_pos hskip] at hstep
        rw [hstep, ih]
        simp only [acceptedOpts, hl]
        rw [if_pos hskip]
      · rw [if_neg hskip] at hstep
        rw [hstep, ih]
        simp only [acceptedOpts, hl]
        rw [if_neg hskip]
        simp [List.any_cons, Bool.or_assoc]

/-- C7 counterexample: the mount table of `envTwoMounts` has a longer
match carrying prjquota before the shorter selected match /a whose
options rw,relatime do not carry it; the scan still reports the quota
flag as true, so the flag is not equivalent to the prjquota test of
the selected entry. -/
theorem checkMountpoint_quotaFlag_cex :
    CheckMountpoint envTwoMounts 7 = (("/a"), true, ext4FS)
    ∧ getF (splitS (' ') ("/dev/x /a ext4 rw,relatime 0 0")) 3 = ("rw,relatime")
    ∧ hasPrjOption ("rw,relatime") = false := by decide

/-- C7 amended: the quota-enabled boolean returned by `CheckMountpoint`
is true if and only if the options of at least one matching entry that
the scan accepted (was not skipped by the shortest-mountpoint check —
the selected entry among them) contain the prjquota option. -/
theorem checkMountpoint_quotaFlag (env : Env) (devID : Nat) (out : String)
    (hout : env.procMounts = Except.ok out) :
    (CheckMountpoint env devID).2.1
      = (acceptedOpts env devID ("") (splitS ('\n') out)).any hasPrjOption := by
  simp only [CheckMountpoint, hout]
  rw [scanFold_quotaFlag env devID (splitS ('\n') out) ⟨false, (""), ("")⟩]
  simp

/-- C7 witness: concrete evaluation of the amended flag equation on the
two-entry table. -/
theorem checkMountpoint_quotaFlag_witness :
    (CheckMountpoint envTwoMounts 7).2.1
      = (acceptedOpts envTwoMounts 7 ("")
          (splitS ('\n') ("/dev/x /a/b ext4 rw,prjquota 0 0\n/dev/x /a ext4 rw,relatime 0 0"))).any hasPrjOption :=
  checkMountpoint_quotaFlag envTwoMounts 7
    ("/dev/x /a/b ext4 rw,prjquota 0 0\n/dev/x /a ext4 rw,relatime 0 0") (by decide)

